import Mathlib

/-!
# Verification of the Polymarket market-making core

Shallow embedding, over exact rationals, of the quoting, inventory, risk and
order-lifecycle functions of the repository.  The repository ships two Python
package layouts (an outer tree and a nested `src/` tree); near-identical
modules that differ between the layouts are embedded in separate namespaces:
`Inv1` for `inventory/inventory_manager.py` (outer) and `Inv2` for
`src/inventory/inventory_manager.py` (nested).  Python `float` arithmetic is
modelled by exact rational arithmetic; Python's `round(x, 3)` (round half to
even at three decimals) by `round3`; Python's `int(x)` (truncation toward
zero) by `pytrunc`.
-/

/-- Round-half-to-even of a rational to an integer (semantics of Python's
built-in `round` at exact values). -/
def rhe (q : ℚ) : ℤ :=
  if q - ⌊q⌋ < 1/2 then ⌊q⌋
  else if q - ⌊q⌋ > 1/2 then ⌊q⌋ + 1
  else if 2 ∣ ⌊q⌋ then ⌊q⌋ else ⌊q⌋ + 1

/-- Python's `round(x, 3)`: round half to even at three decimal places. -/
def round3 (q : ℚ) : ℚ := (rhe (q * 1000) : ℚ) / 1000

/-- Python's `int(x)` on a float: truncation toward zero. -/
def pytrunc (q : ℚ) : ℤ := if q < 0 then ⌈q⌉ else ⌊q⌋

theorem rhe_ge_floor (q : ℚ) : ⌊q⌋ ≤ rhe q := by
  unfold rhe
  split
  · exact le_refl _
  · split
    · exact le_of_lt (lt_add_one _)
    · split
      · exact le_refl _
      · exact le_of_lt (lt_add_one _)

theorem rhe_le_ceil (q : ℚ) : rhe q ≤ ⌈q⌉ := by
  unfold rhe
  split
  · exact Int.floor_le_ceil q
  · rename_i h1
    push_neg at h1
    have hlt : (⌊q⌋ : ℚ) < q := by linarith
    have h2 : ⌊q⌋ < ⌈q⌉ := by
      have hle := Int.le_ceil q
      exact_mod_cast lt_of_lt_of_le hlt hle
    have h3 := Int.ceil_le_floor_add_one q
    split
    · omega
    · split <;> omega

/-- `rhe` never moves a value up by more than one half. -/
theorem rhe_sub_le_half (q : ℚ) : (rhe q : ℚ) ≤ q + 1/2 := by
  unfold rhe
  have hfl : (⌊q⌋ : ℚ) ≤ q := Int.floor_le q
  split
  · linarith
  · rename_i h1
    push_neg at h1
    split
    · rename_i h2
      push_cast
      linarith
    · rename_i h2
      push_neg at h2
      have heq : q - (⌊q⌋ : ℚ) = 1/2 := le_antisymm h2 h1
      split
      · linarith
      · push_cast
        linarith

theorem round3_le (q : ℚ) : round3 q ≤ q + 1/2000 := by
  unfold round3
  have h := rhe_sub_le_half (q * 1000)
  linarith

theorem round3_mem_Icc {a b q : ℚ} (ha : ∃ m : ℤ, a = m / 1000)
    (hb : ∃ n : ℤ, b = n / 1000) (h1 : a ≤ q) (h2 : q ≤ b) :
    a ≤ round3 q ∧ round3 q ≤ b := by
  obtain ⟨m, rfl⟩ := ha
  obtain ⟨n, rfl⟩ := hb
  unfold round3
  constructor
  · have hm : (m : ℚ) ≤ q * 1000 := by nlinarith
    have hf : m ≤ ⌊q * 1000⌋ := Int.le_floor.mpr hm
    have h := rhe_ge_floor (q * 1000)
    have hmr : (m : ℚ) ≤ (rhe (q * 1000) : ℚ) := by exact_mod_cast le_trans hf h
    linarith
  · have hn : q * 1000 ≤ (n : ℚ) := by nlinarith
    have hc : ⌈q * 1000⌉ ≤ n := Int.ceil_le.mpr hn
    have h := rhe_le_ceil (q * 1000)
    have hnr : (rhe (q * 1000) : ℚ) ≤ (n : ℚ) := by exact_mod_cast le_trans h hc
    linarith

/-- `round3` sends any rational into the grid of multiples of `0.001`. -/
theorem round3_grid (q : ℚ) : ∃ k : ℤ, round3 q = (k : ℚ) / 1000 :=
  ⟨rhe (q * 1000), rfl⟩

theorem pytrunc_mono {x y : ℚ} (h : x ≤ y) : pytrunc x ≤ pytrunc y := by
  unfold pytrunc
  split
  · split
    · exact Int.ceil_le_ceil h
    · rename_i hx hy
      push_neg at hy
      have h1 : ⌈x⌉ ≤ 0 := Int.ceil_le.mpr (by push_cast; linarith)
      have h2 : (0:ℤ) ≤ ⌊y⌋ := Int.floor_nonneg.mpr hy
      omega
  · split
    · rename_i hx hy
      push_neg at hx
      linarith [le_trans hx h, hy]
    · exact Int.floor_le_floor h

theorem pytrunc_nonneg {q : ℚ} (h : 0 ≤ q) : 0 ≤ pytrunc q := by
  unfold pytrunc
  split
  · linarith
  · exact Int.floor_nonneg.mpr h

/-! ## `inventory/inventory_manager.py` (outer layout) — namespace `Inv1` -/

namespace Inv1

/-- `Inventory` dataclass of `inventory/inventory_manager.py`. -/
structure Inventory where
  yes_position : ℚ := 0
  no_position : ℚ := 0
  net_exposure_usd : ℚ := 0
  total_value_usd : ℚ := 0
deriving DecidableEq, Repr

/-- `Inventory.update`: incremental positions, exposure recomputed from the
supplied price. -/
def Inventory.update (s : Inventory) (yes_delta no_delta price : ℚ) : Inventory :=
  let yes_position := s.yes_position + yes_delta
  let no_position := s.no_position + no_delta
  let yes_val := yes_position * price
  let no_val := no_position * (1 - price)
  { yes_position := yes_position
    no_position := no_position
    net_exposure_usd := yes_val - no_val
    total_value_usd := yes_val + no_val }

/-- `InventoryManager` configuration plus held inventory (outer layout). -/
structure InventoryManager where
  max_exposure_usd : ℚ
  min_exposure_usd : ℚ
  target_balance : ℚ := 0
  inventory : Inventory := {}
deriving DecidableEq, Repr

/-- `InventoryManager.apply_skew_to_price` (outer layout, lines 33–46). -/
def InventoryManager.apply_skew_to_price (m : InventoryManager)
    (price : ℚ) (is_yes : Bool) : ℚ :=
  let exposure := m.inventory.net_exposure_usd
  let sensitivity : ℚ := 5/1000
  let skew_factor := exposure / max m.max_exposure_usd 1
  let adjustment := round3 (skew_factor * sensitivity)
  let new_price := if is_yes then price - adjustment else price + adjustment
  round3 (max (1/1000) (min (999/1000) new_price))

/-- `InventoryManager.get_quote_size_yes` (outer layout, lines 48–51). -/
def InventoryManager.get_quote_size_yes (m : InventoryManager)
    (base_size price : ℚ) : ℚ :=
  if m.inventory.net_exposure_usd + base_size * price > m.max_exposure_usd then 0
  else base_size

/-- `InventoryManager.get_quote_size_no` (outer layout, lines 53–56). -/
def InventoryManager.get_quote_size_no (m : InventoryManager)
    (base_size price : ℚ) : ℚ :=
  if m.inventory.net_exposure_usd - base_size * (1 - price) < m.min_exposure_usd then 0
  else base_size

end Inv1

/-- C10: `InventoryManager.apply_skew_to_price` is a total function — its
divisor is `max(max_exposure_usd, 1) ≥ 1` even for zero or negative
`max_exposure_usd` — and for every price, side flag and inventory state its
result is within `[0.001, 0.999]` and is a multiple of `0.001` (rounded to
three decimal places). -/
theorem c10_apply_skew_total_and_bounded
    (m : Inv1.InventoryManager) (price : ℚ) (is_yes : Bool) :
    (1 ≤ max m.max_exposure_usd 1) ∧
    (1/1000 ≤ m.apply_skew_to_price price is_yes) ∧
    (m.apply_skew_to_price price is_yes ≤ 999/1000) ∧
    (∃ k : ℤ, m.apply_skew_to_price price is_yes = (k : ℚ) / 1000) := by
  have h := round3_mem_Icc (a := 1/1000) (b := 999/1000)
    (q := max (1/1000) (min (999/1000)
      (if is_yes then
        price - round3 (m.inventory.net_exposure_usd / max m.max_exposure_usd 1 * (5/1000))
      else
        price + round3 (m.inventory.net_exposure_usd / max m.max_exposure_usd 1 * (5/1000)))))
    ⟨1, by norm_num⟩ ⟨999, by norm_num⟩
    (le_max_left _ _)
    (max_le (by norm_num) (min_le_left _ _))
  exact ⟨le_max_right _ _, h.1, h.2, round3_grid _⟩

/-! ## `src/inventory/inventory_manager.py` (nested layout) — namespace `Inv2` -/

namespace Inv2

/-- `Inventory` dataclass of `src/inventory/inventory_manager.py`. -/
structure Inventory where
  yes_position : ℚ := 0
  no_position : ℚ := 0
  net_exposure_usd : ℚ := 0
  total_value_usd : ℚ := 0
deriving DecidableEq, Repr

/-- `Inventory.update` (nested layout): positions accumulate deltas; exposure
and value are recomputed from scratch at the supplied price. -/
def Inventory.update (s : Inventory) (yes_delta no_delta price : ℚ) : Inventory :=
  let yes_position := s.yes_position + yes_delta
  let no_position := s.no_position + no_delta
  let yes_value := yes_position * price
  let no_value := no_position * (1 - price)
  { yes_position := yes_position
    no_position := no_position
    net_exposure_usd := yes_value - no_value
    total_value_usd := yes_value + no_value }

/-- `Inventory.get_skew` (nested layout, lines 28–32); the local
`total = abs(yes_position) + abs(no_position)` is inlined. -/
def Inventory.get_skew (s : Inventory) : ℚ :=
  if |s.yes_position| + |s.no_position| = 0 then 0
  else if s.total_value_usd > 0 then |s.net_exposure_usd| / s.total_value_usd
  else 0

/-- `InventoryManager` of the nested layout. -/
structure InventoryManager where
  max_exposure_usd : ℚ
  min_exposure_usd : ℚ
  target_balance : ℚ := 0
  inventory : Inventory := {}
deriving DecidableEq, Repr

/-- `InventoryManager.can_quote_yes` (nested layout). -/
def InventoryManager.can_quote_yes (m : InventoryManager) (size_usd : ℚ) : Prop :=
  m.inventory.net_exposure_usd + size_usd ≤ m.max_exposure_usd

instance (m : InventoryManager) (s : ℚ) : Decidable (m.can_quote_yes s) := by
  unfold InventoryManager.can_quote_yes; infer_instance

/-- `InventoryManager.can_quote_no` (nested layout). -/
def InventoryManager.can_quote_no (m : InventoryManager) (size_usd : ℚ) : Prop :=
  m.inventory.net_exposure_usd - size_usd ≥ m.min_exposure_usd

instance (m : InventoryManager) (s : ℚ) : Decidable (m.can_quote_no s) := by
  unfold InventoryManager.can_quote_no; infer_instance

/-- `InventoryManager.get_quote_size_yes` (nested layout, lines 63–71). -/
def InventoryManager.get_quote_size_yes (m : InventoryManager)
    (base_size price : ℚ) : ℚ :=
  if ¬ m.can_quote_yes base_size then
    let max_size := max 0 (m.max_exposure_usd - m.inventory.net_exposure_usd)
    min base_size (max_size / price)
  else if m.inventory.net_exposure_usd > m.target_balance then base_size * (1/2)
  else base_size

/-- `InventoryManager.get_quote_size_no` (nested layout, lines 73–81). -/
def InventoryManager.get_quote_size_no (m : InventoryManager)
    (base_size price : ℚ) : ℚ :=
  if ¬ m.can_quote_no base_size then
    let max_size := max 0 |m.min_exposure_usd - m.inventory.net_exposure_usd|
    min base_size (max_size / (1 - price))
  else if m.inventory.net_exposure_usd < m.target_balance then base_size * (1/2)
  else base_size

end Inv2

/-- C2 (counterexample): the claim says `get_skew` returns
`net_exposure_usd / total_value_usd` when `total_value_usd > 0` and that the
result always lies in [-1, 1].  The code returns
`abs(net_exposure_usd) / total_value_usd`, without any clamp, and on the
reachable state obtained by the single update
`update(yes_delta = 5, no_delta = -3, price = 1/2)` the skew is `4 ∉ [-1, 1]`;
on `update(yes_delta = 0, no_delta = 3, price = 1/2)` it is `1 ≠ net/total = -1`. -/
theorem c2_get_skew_counterexample :
    ¬ (∀ s : Inv2.Inventory,
        (0 < s.total_value_usd →
          s.get_skew = s.net_exposure_usd / s.total_value_usd) ∧
        (-1 ≤ s.get_skew ∧ s.get_skew ≤ 1)) := by
  intro h
  have h1 := h (Inv2.Inventory.update {} 5 (-3) (1/2))
  have : (Inv2.Inventory.update {} 5 (-3) (1/2)).get_skew = 4 := by
    simp only [Inv2.Inventory.update, Inv2.Inventory.get_skew]
    norm_num
  rw [this] at h1
  have := h1.2.2
  norm_num at this

/-- C2 (amended): for every inventory state, `get_skew()` returns
`|net_exposure_usd| / total_value_usd` when positions are not both zero and
`total_value_usd > 0`, and `0` otherwise (so it never divides by zero and
returns `0` for zero positions); the result is always nonnegative, and for
every state reached by an update whose resulting positions are nonnegative and
whose price lies in `[0, 1]` the result lies in `[0, 1] ⊆ [-1, 1]`. -/
theorem c2_get_skew_nonneg_and_bounded :
    ((({} : Inv2.Inventory).get_skew = 0) ∧
     (∀ s : Inv2.Inventory, 0 ≤ s.get_skew) ∧
     (∀ s : Inv2.Inventory, ¬ (0 < s.total_value_usd) → s.get_skew = 0) ∧
     (∀ s : Inv2.Inventory, 0 < s.total_value_usd →
        |s.yes_position| + |s.no_position| ≠ 0 →
        s.get_skew = |s.net_exposure_usd| / s.total_value_usd) ∧
     (∀ (s : Inv2.Inventory) (yd nd p : ℚ),
        0 ≤ (s.update yd nd p).yes_position →
        0 ≤ (s.update yd nd p).no_position →
        0 ≤ p → p ≤ 1 →
        (s.update yd nd p).get_skew ≤ 1)) := by
  refine ⟨?_, ?_, ?_, ?_, ?_⟩
  · simp [Inv2.Inventory.get_skew]
  · intro s
    unfold Inv2.Inventory.get_skew
    split
    · exact le_refl (0 : ℚ)
    · split
      · rename_i h
        exact div_nonneg (abs_nonneg _) (le_of_lt h)
      · exact le_refl (0 : ℚ)
  · intro s h
    simp [Inv2.Inventory.get_skew, h]
  · intro s h1 h2
    simp [Inv2.Inventory.get_skew, h1, h2]
  · intro s yd nd p hy hn hp0 hp1
    set s' := s.update yd nd p with hs'
    have hyv : 0 ≤ s'.yes_position * p := mul_nonneg hy hp0
    have hnv : 0 ≤ s'.no_position * (1 - p) := mul_nonneg hn (by linarith)
    have hnet : s'.net_exposure_usd =
        s'.yes_position * p - s'.no_position * (1 - p) := by
      simp [hs', Inv2.Inventory.update]
    have htot : s'.total_value_usd =
        s'.yes_position * p + s'.no_position * (1 - p) := by
      simp [hs', Inv2.Inventory.update]
    unfold Inv2.Inventory.get_skew
    split
    · norm_num
    · split
      · rename_i hpos
        rw [div_le_one hpos, htot]
        calc |s'.net_exposure_usd| = |s'.yes_position * p - s'.no_position * (1 - p)| := by
              rw [hnet]
          _ ≤ s'.yes_position * p + s'.no_position * (1 - p) := by
              rw [abs_le]
              constructor <;> nlinarith
      · norm_num

/-- Witness for C2 (amended): the bound applies at the concrete update
`update(yes_delta = 2, no_delta = 1, price = 1/2)` from the empty inventory. -/
theorem c2_get_skew_witness :
    (0 ≤ ((({} : Inv2.Inventory).update 2 1 (1/2)).yes_position)) ∧
    ((({} : Inv2.Inventory).update 2 1 (1/2)).get_skew ≤ 1) :=
  ⟨by norm_num [Inv2.Inventory.update],
   c2_get_skew_nonneg_and_bounded.2.2.2.2 {} 2 1 (1/2)
     (by norm_num [Inv2.Inventory.update])
     (by norm_num [Inv2.Inventory.update])
     (by norm_num) (by norm_num)⟩

/-- C6 (counterexample): the claim says `get_quote_size_yes(base, price)`
returns 0 whenever `net_exposure + base*price` would exceed the maximum
exposure.  In the code (nested layout, the variant imported by both quote
engines) the capacity test is `net_exposure + base ≤ max_exposure` in USD and
an over-limit request is capped to `min(base, max(0, max_exposure −
net_exposure)/price)`, not zeroed: with `max_exposure = 100`, inventory
updated once by `update(180, 0, 1/2)` (so `net_exposure = 90`), `base = 40`,
`price = 1/2`, we have `90 + 40·(1/2) = 110 > 100` yet the function returns
`20`. -/
theorem c6_quote_size_counterexample :
    ¬ (∀ (m : Inv2.InventoryManager) (base price : ℚ),
        m.inventory.net_exposure_usd + base * price > m.max_exposure_usd →
        m.get_quote_size_yes base price = 0) := by
  intro h
  have := h ⟨100, -100, 0, Inv2.Inventory.update {} 180 0 (1/2)⟩ 40 (1/2)
    (by norm_num [Inv2.Inventory.update])
  norm_num [Inv2.InventoryManager.get_quote_size_yes,
    Inv2.InventoryManager.can_quote_yes, Inv2.Inventory.update] at this

/-- C6 (amended): `get_quote_size_yes` returns the base size when
`net_exposure + base ≤ max_exposure` and `net_exposure ≤ target_balance`,
half the base size when `net_exposure + base ≤ max_exposure` and
`net_exposure > target_balance`, and otherwise the capped size
`min(base, max(0, max_exposure − net_exposure)/price)` — which is 0 whenever
`net_exposure ≥ max_exposure` (for nonnegative base).  `get_quote_size_no`
is symmetric against the minimum exposure bound with cap
`min(base, max(0, |min_exposure − net_exposure|)/(1 − price))`. -/
theorem c6_quote_size_amended :
    (∀ (m : Inv2.InventoryManager) (base price : ℚ),
      (m.can_quote_yes base → m.get_quote_size_yes base price =
        (if m.inventory.net_exposure_usd > m.target_balance then base * (1/2)
         else base)) ∧
      (¬ m.can_quote_yes base → m.get_quote_size_yes base price =
        min base (max 0 (m.max_exposure_usd - m.inventory.net_exposure_usd) / price)) ∧
      (¬ m.can_quote_yes base → m.max_exposure_usd ≤ m.inventory.net_exposure_usd →
        0 ≤ base → m.get_quote_size_yes base price = 0)) ∧
    (∀ (m : Inv2.InventoryManager) (base price : ℚ),
      (m.can_quote_no base → m.get_quote_size_no base price =
        (if m.inventory.net_exposure_usd < m.target_balance then base * (1/2)
         else base)) ∧
      (¬ m.can_quote_no base → m.get_quote_size_no base price =
        min base (max 0 |m.min_exposure_usd - m.inventory.net_exposure_usd| / (1 - price)))) := by
  constructor
  · intro m base price
    refine ⟨?_, ?_, ?_⟩
    · intro hc
      simp only [Inv2.InventoryManager.get_quote_size_yes, if_neg (not_not_intro hc)]
    · intro hc
      simp only [Inv2.InventoryManager.get_quote_size_yes, if_pos hc]
    · intro hc hle hb
      simp only [Inv2.InventoryManager.get_quote_size_yes, if_pos hc]
      have h0 : max 0 (m.max_exposure_usd - m.inventory.net_exposure_usd) = 0 :=
        max_eq_left (by linarith)
      rw [h0, zero_div]
      exact min_eq_right hb
  · intro m base price
    constructor
    · intro hc
      simp only [Inv2.InventoryManager.get_quote_size_no, if_neg (not_not_intro hc)]
    · intro hc
      simp only [Inv2.InventoryManager.get_quote_size_no, if_pos hc]

/-- Witness for C6 (amended): with `max_exposure = 100`, `net_exposure = 90`
(reached by `update(180, 0, 1/2)`), `base = 40` and `price = 1/2`, the yes leg
cannot quote the full base and the returned size is the cap
`min(40, max(0, 100 − 90)/(1/2)) = 20`. -/
theorem c6_quote_size_witness :
    ¬ (Inv2.InventoryManager.can_quote_yes
        ⟨100, -100, 0, Inv2.Inventory.update {} 180 0 (1/2)⟩ 40) ∧
    Inv2.InventoryManager.get_quote_size_yes
        ⟨100, -100, 0, Inv2.Inventory.update {} 180 0 (1/2)⟩ 40 (1/2) = 20 := by
  have hc : ¬ (Inv2.InventoryManager.can_quote_yes
      ⟨100, -100, 0, Inv2.Inventory.update {} 180 0 (1/2)⟩ 40) := by
    norm_num [Inv2.InventoryManager.can_quote_yes, Inv2.Inventory.update]
  refine ⟨hc, ?_⟩
  have h := (c6_quote_size_amended.1
    ⟨100, -100, 0, Inv2.Inventory.update {} 180 0 (1/2)⟩ 40 (1/2)).2.1 hc
  rw [h]
  norm_num [Inv2.Inventory.update]

/-! ## `market_maker/dynamic_pricing_system.py` — `OrderManagementSystem` -/

namespace OMS

/-- State of `OrderManagementSystem`: active order ids (the stored per-order
dicts are not read by the functions under study), the price tolerance and the
last update timestamp. -/
structure State where
  order_lifetime_ms : ℤ := 3000
  active_orders : List String := []
  price_tolerance_bps : ℚ := 10
  last_update_time : ℚ := 0
deriving DecidableEq, Repr

/-- `OrderManagementSystem.should_update_orders` (lines 315–351); `time.time()`
is passed explicitly as `now`. -/
def should_update_orders (s : State) (now current_mid_price last_mid_price : ℚ) :
    Bool :=
  if s.active_orders = [] then false
  else
    let time_since_update := now - s.last_update_time
    let price_change_bps := |current_mid_price - last_mid_price| / last_mid_price * 10000
    if price_change_bps > s.price_tolerance_bps ∨ time_since_update > 2 then true
    else false

/-- Result dictionary of `handle_partial_fill`: the `remaining_size` key is
absent (`none`) on the unknown-order path. -/
structure PartialFillResult where
  should_cancel : Bool
  remaining_size : Option ℚ
deriving DecidableEq, Repr

/-- `OrderManagementSystem.handle_partial_fill` (lines 353–396). -/
def handle_partial_fill (s : State) (order_id : String)
    (filled_size total_size : ℚ) : PartialFillResult :=
  if order_id ∉ s.active_orders then { should_cancel := true, remaining_size := none }
  else
    let remaining_size := total_size - filled_size
    let fill_ratio := filled_size / total_size
    if fill_ratio < 1/5 then
      { should_cancel := false, remaining_size := some total_size }
    else if 1/5 ≤ fill_ratio ∧ fill_ratio ≤ 4/5 then
      { should_cancel := false, remaining_size := some (max 10 remaining_size) }
    else
      { should_cancel := true, remaining_size := some 0 }

end OMS

/-- C5 (counterexample): the claim says the refresh trigger returns true when
there are no active orders needing refresh; the code returns `False` on an
empty `active_orders` map (its own docstring lists "there are active orders"
as a *condition* for updating).  Concretely, with no active orders, a 100 bps
price move and 100 s elapsed, `should_update_orders` returns `false`. -/
theorem c5_should_update_counterexample :
    ¬ (∀ (s : OMS.State) (now current_mid last_mid : ℚ),
        s.active_orders = [] →
        OMS.should_update_orders s now current_mid last_mid = true) := by
  intro h
  have := h { active_orders := [] } 100 (51/100) (1/2) rfl
  simp [OMS.should_update_orders] at this

/-- C5 (amended): `should_update_orders` returns false when there are no
active orders; when active orders exist it returns true exactly when the mid
price has moved by more than `price_tolerance_bps` (10 bps) since the last
refresh or more than 2 seconds have elapsed since the last update. -/
theorem c5_should_update_amended (s : OMS.State) (now current_mid last_mid : ℚ) :
    (s.active_orders = [] →
      OMS.should_update_orders s now current_mid last_mid = false) ∧
    (s.active_orders ≠ [] →
      (OMS.should_update_orders s now current_mid last_mid = true ↔
        (|current_mid - last_mid| / last_mid * 10000 > s.price_tolerance_bps ∨
         now - s.last_update_time > 2))) := by
  constructor
  · intro h
    simp [OMS.should_update_orders, h]
  · intro h
    simp only [OMS.should_update_orders, if_neg h]
    split_ifs with hcond
    · simp [hcond]
    · simp [hcond]

/-- Witness for C5 (amended): with one active order, a mid move from 0.50 to
0.51 (200 bps > 10 bps) forces a refresh. -/
theorem c5_should_update_witness :
    (({ active_orders := ["o1"] } : OMS.State).active_orders ≠ []) ∧
    OMS.should_update_orders { active_orders := ["o1"] } 1 (51/100) (1/2) = true := by
  refine ⟨by simp, ?_⟩
  have h := (c5_should_update_amended { active_orders := ["o1"] } 1 (51/100) (1/2)).2
    (by simp)
  rw [h]
  left
  rw [show |(51:ℚ)/100 - 1/2| = 1/100 by rw [abs_of_pos] <;> norm_num]
  norm_num

/-- C8: for a known active order with `0 < filled_size ≤ total_size`,
`handle_partial_fill` leaves the order resting with remaining size equal to
the total when the fill ratio is below 0.2; keeps it with remaining size
`max(10, total − filled)` when the ratio is in [0.2, 0.8]; and cancels with
remaining size 0 when the ratio exceeds 0.8. -/
theorem c8_handle_partial_fill (s : OMS.State) (order_id : String)
    (filled_size total_size : ℚ)
    (hmem : order_id ∈ s.active_orders)
    (hpos : 0 < filled_size) (hle : filled_size ≤ total_size) :
    (filled_size / total_size < 1/5 →
      OMS.handle_partial_fill s order_id filled_size total_size =
        { should_cancel := false, remaining_size := some total_size }) ∧
    (1/5 ≤ filled_size / total_size → filled_size / total_size ≤ 4/5 →
      OMS.handle_partial_fill s order_id filled_size total_size =
        { should_cancel := false,
          remaining_size := some (max 10 (total_size - filled_size)) }) ∧
    (4/5 < filled_size / total_size →
      OMS.handle_partial_fill s order_id filled_size total_size =
        { should_cancel := true, remaining_size := some 0 }) := by
  have hmem' : ¬ order_id ∉ s.active_orders := not_not_intro hmem
  refine ⟨?_, ?_, ?_⟩
  · intro hr
    simp only [OMS.handle_partial_fill, if_neg hmem', if_pos hr]
  · intro hr1 hr2
    simp only [OMS.handle_partial_fill, if_neg hmem', if_neg (not_lt.mpr hr1),
      if_pos (And.intro hr1 hr2)]
  · intro hr
    have h1 : ¬ filled_size / total_size < 1/5 := by linarith
    have h2 : ¬ (1/5 ≤ filled_size / total_size ∧ filled_size / total_size ≤ 4/5) := by
      intro hcontra
      linarith [hcontra.2]
    simp only [OMS.handle_partial_fill, if_neg hmem', if_neg h1, if_neg h2]

/-- Witness for C8: order "a" is active, `filled = 5`, `total = 10` (ratio 0.5
∈ [0.2, 0.8]) → no cancel, remaining `max(10, 5) = 10`. -/
theorem c8_handle_partial_fill_witness :
    ("a" ∈ ({ active_orders := ["a"] } : OMS.State).active_orders) ∧
    OMS.handle_partial_fill { active_orders := ["a"] } "a" 5 10 =
      { should_cancel := false, remaining_size := some 10 } := by
  have hmem : "a" ∈ ({ active_orders := ["a"] } : OMS.State).active_orders := by simp
  refine ⟨hmem, ?_⟩
  have h := (c8_handle_partial_fill { active_orders := ["a"] } "a" 5 10 hmem
    (by norm_num) (by norm_num)).2.1 (by norm_num) (by norm_num)
  rw [h]
  norm_num

/-- C9: for an order id not present in `active_orders`, `handle_partial_fill`
returns `should_cancel = true` with no `remaining_size` entry, for all
`filled_size` and `total_size` (including `total_size = 0`: the division
`filled_size / total_size` is never reached on this path). -/
theorem c9_handle_partial_fill_unknown (s : OMS.State) (order_id : String)
    (filled_size total_size : ℚ) (h : order_id ∉ s.active_orders) :
    OMS.handle_partial_fill s order_id filled_size total_size =
      { should_cancel := true, remaining_size := none } := by
  simp only [OMS.handle_partial_fill, if_pos h]

/-- Witness for C9: the default state has no order "zz"; with `total_size = 0`
the result is cancel with no remaining size. -/
theorem c9_handle_partial_fill_unknown_witness :
    ("zz" ∉ ({} : OMS.State).active_orders) ∧
    OMS.handle_partial_fill {} "zz" 3 0 =
      { should_cancel := true, remaining_size := none } :=
  ⟨by simp, c9_handle_partial_fill_unknown {} "zz" 3 0 (by simp)⟩

/-! ## `src/risk/stop_loss_manager.py` — `StopLossManager` -/

namespace SL

/-- State of `StopLossManager`: the configured threshold, recorded entry
prices (`None` when unknown) and the latch flag. -/
structure State where
  stop_loss_pct : ℚ := 10
  entry_yes : Option ℚ := none
  entry_no : Option ℚ := none
  stop_loss_triggered : Bool := false
deriving DecidableEq, Repr

/-- `StopLossManager.record_entry`: stores the entry price under the "yes" or
"no" key; other token ids are ignored. -/
def record_entry (s : State) (token_id : String) (price : ℚ) : State :=
  if token_id = "yes" then { s with entry_yes := some price }
  else if token_id = "no" then { s with entry_no := some price }
  else s

/-- Entry-leg value: Python's `if entry and position != 0: position * entry
else 0` — a recorded entry price of `0.0` is falsy and counts as unknown. -/
def entryValue (entry : Option ℚ) (position : ℚ) : ℚ :=
  match entry with
  | some p => if p ≠ 0 ∧ position ≠ 0 then position * p else 0
  | none => 0

/-- One call of `StopLossManager.check_stop_loss` (lines 52–120): returns the
boolean result and the post-call state.  The locals `total_value =
yes_position*price + no_position*(1-price)`, `total_entry_value` and
`loss_pct = pnl/total_entry_value*100` are inlined. -/
def check_stop_loss (s : State) (yes_position no_position current_yes_price : ℚ) :
    Bool × State :=
  if s.stop_loss_triggered then (false, s)
  else if yes_position = 0 ∧ no_position = 0 then (false, s)
  else if |yes_position * current_yes_price + no_position * (1 - current_yes_price)|
      < 1/100 then (false, s)
  else if entryValue s.entry_yes yes_position + entryValue s.entry_no no_position
      = 0 then (false, s)
  else if (yes_position * current_yes_price + no_position * (1 - current_yes_price)
        - (entryValue s.entry_yes yes_position + entryValue s.entry_no no_position)) /
        (entryValue s.entry_yes yes_position + entryValue s.entry_no no_position) * 100
      < -s.stop_loss_pct then
    (true, { s with stop_loss_triggered := true })
  else (false, s)

/-- `StopLossManager.should_close_position`. -/
def should_close_position (s : State) : Bool := s.stop_loss_triggered

/-- `StopLossManager.reset` (lines 126–133). -/
def reset (s : State) : State :=
  { s with stop_loss_triggered := false, entry_yes := none, entry_no := none }

/-- One market observation passed to `check_stop_loss`. -/
structure Mark where
  yes_position : ℚ
  no_position : ℚ
  current_yes_price : ℚ
deriving DecidableEq, Repr

/-- Run `check_stop_loss` over a sequence of observations, collecting the
returned booleans. -/
def run_checks : State → List Mark → List Bool × State
  | s, [] => ([], s)
  | s, i :: rest =>
    let r := check_stop_loss s i.yes_position i.no_position i.current_yes_price
    let rr := run_checks r.2 rest
    (r.1 :: rr.1, rr.2)

theorem check_of_triggered (s : State) (y n p : ℚ)
    (h : s.stop_loss_triggered = true) : check_stop_loss s y n p = (false, s) := by
  simp [check_stop_loss, h]

/-- Every call of `check_stop_loss` either reports false and leaves the state
unchanged, or fires from the armed state and latches the triggered flag. -/
theorem check_cases (s : State) (y n p : ℚ) :
    check_stop_loss s y n p = (false, s) ∨
    (s.stop_loss_triggered = false ∧
      check_stop_loss s y n p = (true, { s with stop_loss_triggered := true })) := by
  unfold check_stop_loss
  split_ifs <;> simp_all

theorem check_false_state (s : State) (y n p : ℚ)
    (h : (check_stop_loss s y n p).1 = false) : (check_stop_loss s y n p).2 = s := by
  rcases check_cases s y n p with heq | ⟨_, heq⟩
  · rw [heq]
  · rw [heq] at h
    simp at h

theorem check_true_latches (s : State) (y n p : ℚ)
    (h : (check_stop_loss s y n p).1 = true) :
    s.stop_loss_triggered = false ∧
    (check_stop_loss s y n p).2.stop_loss_triggered = true := by
  rcases check_cases s y n p with heq | ⟨harm, heq⟩
  · rw [heq] at h
    simp at h
  · rw [heq]
    exact ⟨harm, rfl⟩

theorem run_checks_count_le (s : State) (l : List Mark) :
    ((run_checks s l).1.count true) ≤ (if s.stop_loss_triggered then 0 else 1) := by
  induction l generalizing s with
  | nil => simp [run_checks]
  | cons i rest ih =>
    rcases check_cases s i.yes_position i.no_position i.current_yes_price with
      heq | ⟨harm, heq⟩
    · have hrest := ih s
      simp only [run_checks, heq, List.count_cons]
      split_ifs at hrest ⊢ <;> simp_all
    · have hrest := ih { s with stop_loss_triggered := true }
      simp only [run_checks, heq, List.count_cons]
      simp at hrest ⊢
      simp [harm, hrest]

end SL

/-- C4: the stop-loss is a latched two-state machine.  (i) Once triggered,
every later `check_stop_loss` call returns false and leaves the state
unchanged; (ii) a true result occurs only from the armed state and latches the
triggered flag; (iii) `should_close_position` reports the latch; (iv)
`reset()` restores the armed state (clearing entry prices); (v) over any call
sequence, `check_stop_loss` returns true at most once while armed and never
when already triggered; (vi) from the armed state, a call whose computed loss
percentage exceeds the threshold — with non-zero positions, position value at
least 0.01 in magnitude and a non-zero recorded entry value — returns true. -/
theorem c4_stop_loss_latch :
    (∀ (s : SL.State) (y n p : ℚ), s.stop_loss_triggered = true →
      SL.check_stop_loss s y n p = (false, s)) ∧
    (∀ (s : SL.State) (y n p : ℚ), (SL.check_stop_loss s y n p).1 = true →
      s.stop_loss_triggered = false ∧
      (SL.check_stop_loss s y n p).2.stop_loss_triggered = true) ∧
    (∀ s : SL.State, SL.should_close_position s = s.stop_loss_triggered) ∧
    (∀ s : SL.State, (SL.reset s).stop_loss_triggered = false) ∧
    (∀ (s : SL.State) (l : List SL.Mark),
      ((SL.run_checks s l).1.count true) ≤ (if s.stop_loss_triggered then 0 else 1)) ∧
    (∀ (s : SL.State) (y n p : ℚ),
      s.stop_loss_triggered = false →
      ¬ (y = 0 ∧ n = 0) →
      ¬ (|y * p + n * (1 - p)| < 1/100) →
      (SL.entryValue s.entry_yes y + SL.entryValue s.entry_no n ≠ 0) →
      ((y * p + n * (1 - p)) - (SL.entryValue s.entry_yes y + SL.entryValue s.entry_no n)) /
          (SL.entryValue s.entry_yes y + SL.entryValue s.entry_no n) * 100
        < -s.stop_loss_pct →
      (SL.check_stop_loss s y n p).1 = true) := by
  refine ⟨?_, SL.check_true_latches, fun _ => rfl, fun _ => rfl,
    SL.run_checks_count_le, ?_⟩
  · intro s y n p h
    exact SL.check_of_triggered s y n p h
  · intro s y n p htrig hpos hval hentry hloss
    simp only [SL.check_stop_loss, htrig, Bool.false_eq_true, if_false,
      if_neg hpos, if_neg hval, if_neg hentry, if_pos hloss]

/-- Witness for C4: armed state with recorded entries yes = 0.40, no = 0.55,
positions yes = 100, no = 0, current yes price 0.30: entry value 40, current
value 30, loss −25% < −10% → `check_stop_loss` returns true. -/
theorem c4_stop_loss_witness :
    (({ entry_yes := some (2/5), entry_no := some (11/20) } : SL.State).stop_loss_triggered
      = false) ∧
    (SL.check_stop_loss { entry_yes := some (2/5), entry_no := some (11/20) }
      100 0 (3/10)).1 = true := by
  refine ⟨rfl, ?_⟩
  apply c4_stop_loss_latch.2.2.2.2.2 { entry_yes := some (2/5), entry_no := some (11/20) }
    100 0 (3/10) rfl
  · norm_num
  · norm_num
  · norm_num [SL.entryValue]
  · norm_num [SL.entryValue]

/-! ## `market_maker/dynamic_pricing_system.py` — `DynamicSpreadEngine` -/

namespace DPS

/-- `PricingContext` dataclass (lines 18–28). -/
structure PricingContext where
  market_id : String
  mid_price : ℚ
  volatility : ℚ
  imbalance : ℚ
  best_bid : ℚ
  best_ask : ℚ
  spread_bps : ℤ
  inventory_skew : ℚ
deriving DecidableEq, Repr

/-- `DynamicSpreadEngine` configuration (constructor defaults 10/5/500). -/
structure DynamicSpreadEngine where
  base_spread_bps : ℤ := 10
  min_spread_bps : ℤ := 5
  max_spread_bps : ℤ := 500
deriving DecidableEq, Repr

/-- Stage 1 of `calculate_dynamic_spread`: volatility protection —
`spread = int(spread * (1.0 + volatility**2 * 4.0))` when volatility > 0.3. -/
def vol_stage (e : DynamicSpreadEngine) (volatility : ℚ) : ℤ :=
  if volatility > 3/10 then
    pytrunc ((e.base_spread_bps : ℚ) * (1 + volatility ^ 2 * 4))
  else e.base_spread_bps

/-- Stage 2: L2-imbalance protection — `spread = max(spread,
int(abs(imbalance) * 100))` when |imbalance| > 0.3. -/
def imb_stage (spread : ℤ) (imbalance : ℚ) : ℤ :=
  if |imbalance| > 3/10 then max spread (pytrunc (|imbalance| * 100))
  else spread

/-- Stage 3: inventory-skew protection — `spread = int(spread *
(1.0 + abs(skew) * 0.5))` when |skew| > 0.6. -/
def skew_stage (spread : ℤ) (inventory_skew : ℚ) : ℤ :=
  if |inventory_skew| > 6/10 then
    pytrunc ((spread : ℚ) * (1 + |inventory_skew| * (1/2)))
  else spread

/-- `DynamicSpreadEngine.calculate_dynamic_spread` (lines 53–109): the three
stages in the code's fixed order, then the clamp
`max(min_spread_bps, min(spread, max_spread_bps))`. -/
def calculate_dynamic_spread (e : DynamicSpreadEngine) (context : PricingContext) : ℤ :=
  max e.min_spread_bps
    (min (skew_stage (imb_stage (vol_stage e context.volatility) context.imbalance)
        context.inventory_skew)
      e.max_spread_bps)

theorem vol_stage_nonneg (e : DynamicSpreadEngine) (v : ℚ)
    (hb : 0 ≤ e.base_spread_bps) : 0 ≤ vol_stage e v := by
  unfold vol_stage
  split
  · apply pytrunc_nonneg
    have h1 : (0:ℚ) ≤ (e.base_spread_bps : ℚ) := by exact_mod_cast hb
    nlinarith [sq_nonneg v]
  · exact hb

theorem vol_stage_mono (e : DynamicSpreadEngine) {v₁ v₂ : ℚ}
    (hb : 0 ≤ e.base_spread_bps) (h1 : 3/10 < v₁) (h12 : v₁ ≤ v₂) :
    vol_stage e v₁ ≤ vol_stage e v₂ := by
  have h2 : 3/10 < v₂ := lt_of_lt_of_le h1 h12
  unfold vol_stage
  rw [if_pos h1, if_pos h2]
  apply pytrunc_mono
  have hbq : (0:ℚ) ≤ (e.base_spread_bps : ℚ) := by exact_mod_cast hb
  have hv : v₁ ^ 2 ≤ v₂ ^ 2 := by nlinarith
  exact mul_le_mul_of_nonneg_left (by linarith) hbq

theorem imb_stage_nonneg {s : ℤ} (i : ℚ) (hs : 0 ≤ s) : 0 ≤ imb_stage s i := by
  unfold imb_stage
  split
  · exact le_trans hs (le_max_left _ _)
  · exact hs

theorem imb_stage_mono_s {s₁ s₂ : ℤ} (i : ℚ) (h : s₁ ≤ s₂) :
    imb_stage s₁ i ≤ imb_stage s₂ i := by
  unfold imb_stage
  split
  · exact max_le_max h (le_refl _)
  · exact h

theorem imb_stage_mono_i (s : ℤ) {i₁ i₂ : ℚ} (h1 : 3/10 < |i₁|)
    (h12 : |i₁| ≤ |i₂|) : imb_stage s i₁ ≤ imb_stage s i₂ := by
  have h2 : 3/10 < |i₂| := lt_of_lt_of_le h1 h12
  unfold imb_stage
  rw [if_pos h1, if_pos h2]
  exact max_le_max (le_refl _) (pytrunc_mono (by nlinarith))

theorem skew_stage_mono_s {s₁ s₂ : ℤ} (k : ℚ) (hs : 0 ≤ s₁) (h : s₁ ≤ s₂) :
    skew_stage s₁ k ≤ skew_stage s₂ k := by
  unfold skew_stage
  split
  · apply pytrunc_mono
    have h1q : (s₁ : ℚ) ≤ (s₂ : ℚ) := by exact_mod_cast h
    nlinarith [abs_nonneg k]
  · exact h

end DPS

/-- C7: for a nonnegative configured base spread and an ordered clamp
interval, `calculate_dynamic_spread` is monotonically non-decreasing in
volatility beyond the 0.3 threshold and in |imbalance| beyond the 0.3
threshold (other context fields held fixed), and its result always lies in
`[min_spread_bps, max_spread_bps]`. -/
theorem c7_dynamic_spread_monotone_and_bounded (e : DPS.DynamicSpreadEngine)
    (hbase : 0 ≤ e.base_spread_bps) (hmm : e.min_spread_bps ≤ e.max_spread_bps) :
    (∀ (mkt : String) (mid i bb ba : ℚ) (sb : ℤ) (sk : ℚ) (v₁ v₂ : ℚ),
      3/10 < v₁ → v₁ ≤ v₂ →
      DPS.calculate_dynamic_spread e ⟨mkt, mid, v₁, i, bb, ba, sb, sk⟩ ≤
        DPS.calculate_dynamic_spread e ⟨mkt, mid, v₂, i, bb, ba, sb, sk⟩) ∧
    (∀ (mkt : String) (mid v bb ba : ℚ) (sb : ℤ) (sk : ℚ) (i₁ i₂ : ℚ),
      3/10 < |i₁| → |i₁| ≤ |i₂| →
      DPS.calculate_dynamic_spread e ⟨mkt, mid, v, i₁, bb, ba, sb, sk⟩ ≤
        DPS.calculate_dynamic_spread e ⟨mkt, mid, v, i₂, bb, ba, sb, sk⟩) ∧
    (∀ context : DPS.PricingContext,
      e.min_spread_bps ≤ DPS.calculate_dynamic_spread e context ∧
      DPS.calculate_dynamic_spread e context ≤ e.max_spread_bps) := by
  refine ⟨?_, ?_, ?_⟩
  · intro mkt mid i bb ba sb sk v₁ v₂ h1 h12
    unfold DPS.calculate_dynamic_spread
    apply max_le_max (le_refl _)
    apply min_le_min _ (le_refl _)
    exact DPS.skew_stage_mono_s sk
      (DPS.imb_stage_nonneg i (DPS.vol_stage_nonneg e v₁ hbase))
      (DPS.imb_stage_mono_s i (DPS.vol_stage_mono e hbase h1 h12))
  · intro mkt mid v bb ba sb sk i₁ i₂ h1 h12
    unfold DPS.calculate_dynamic_spread
    apply max_le_max (le_refl _)
    apply min_le_min _ (le_refl _)
    exact DPS.skew_stage_mono_s sk
      (DPS.imb_stage_nonneg i₁ (DPS.vol_stage_nonneg e v hbase))
      (DPS.imb_stage_mono_i _ h1 h12)
  · intro context
    unfold DPS.calculate_dynamic_spread
    exact ⟨le_max_left _ _, max_le hmm (min_le_right _ _)⟩

/-- Witness for C7: with the default engine (base 10, clamp [5, 500]),
raising volatility from 0.4 to 0.5 (both above the 0.3 threshold) does not
decrease the spread. -/
theorem c7_dynamic_spread_witness :
    DPS.calculate_dynamic_spread {} ⟨"m", 1/2, 2/5, 0, 0, 0, 0, 0⟩ ≤
      DPS.calculate_dynamic_spread {} ⟨"m", 1/2, 1/2, 0, 0, 0, 0, 0⟩ :=
  (c7_dynamic_spread_monotone_and_bounded {} (by norm_num) (by norm_num)).1
    "m" (1/2) 0 0 0 0 0 (2/5) (1/2) (by norm_num) (by norm_num)

/-! ## `polymarket/websocket_orderbook.py` — parsing and cache update -/

namespace WS

/-- `OrderbookSnapshot` (lines 14–38): levels plus the derived
`best_bid`/`best_ask`/`spread_bps` fields computed in `__init__`. -/
structure OrderbookSnapshot where
  token_id : String
  bids : List (ℚ × ℚ)
  asks : List (ℚ × ℚ)
  timestamp : ℚ
  best_bid : ℚ
  best_ask : ℚ
  spread_bps : ℤ
deriving DecidableEq, Repr

/-- Constructor of `OrderbookSnapshot`: `best_bid = bids[0][0] if bids else
0.0`, `best_ask = asks[0][0] if asks else 1.0`, and `spread_bps` guarded by
`best_ask > best_bid > 0`. -/
def mkSnapshot (token_id : String) (bids asks : List (ℚ × ℚ)) (timestamp : ℚ) :
    OrderbookSnapshot :=
  let best_bid := match bids.head? with | some b => b.1 | none => 0
  let best_ask := match asks.head? with | some a => a.1 | none => 1
  { token_id := token_id
    bids := bids
    asks := asks
    timestamp := timestamp
    best_bid := best_bid
    best_ask := best_ask
    spread_bps :=
      if best_ask > best_bid ∧ best_bid > 0 then
        pytrunc ((best_ask - best_bid) / ((best_bid + best_ask) / 2) * 10000)
      else 0 }

/-- `OrderbookSnapshot.is_valid`: `bool(bids and asks and
0 < best_bid < best_ask < 1)`. -/
def OrderbookSnapshot.is_valid (s : OrderbookSnapshot) : Prop :=
  s.bids ≠ [] ∧ s.asks ≠ [] ∧ 0 < s.best_bid ∧ s.best_bid < s.best_ask ∧
    s.best_ask < 1

instance (s : OrderbookSnapshot) : Decidable s.is_valid := by
  unfold OrderbookSnapshot.is_valid; infer_instance

/-- One raw level from the wire: either a malformed entry (not a list/tuple of
length ≥ 2 with float-convertible members — skipped by the parser's inner
`try/except`) or a price/size pair. -/
inductive RawEntry where
  | malformed : RawEntry
  | entry (price size : ℚ) : RawEntry
deriving DecidableEq, Repr

/-- A decoded JSON message: `token_id` merges `data.get("token_id") or
data.get("tokenId")`; `none` list fields model absent keys
(`data.get("bids", [])`). -/
structure WSMessage where
  token_id : Option String := none
  mtype : Option String := none
  bids : Option (List RawEntry) := none
  asks : Option (List RawEntry) := none
deriving DecidableEq, Repr

/-- Level filter of `_parse_orderbook_message`: keep a parsed level only when
`0 <= price <= 1 and size > 0`; malformed entries are skipped. -/
def parse_levels (raw : List RawEntry) : List (ℚ × ℚ) :=
  raw.filterMap fun e =>
    match e with
    | .malformed => none
    | .entry p s => if 0 ≤ p ∧ p ≤ 1 ∧ 0 < s then some (p, s) else none

/-- `PolymarketWebSocketOrderbook._parse_orderbook_message` (lines 151–215);
`time.time()` is passed explicitly.  An empty-string token id is falsy in
Python and rejected like a missing one. -/
def parse_orderbook_message (m : WSMessage) (now : ℚ) : Option OrderbookSnapshot :=
  if m.token_id.getD "" = "" then none
  else if parse_levels (m.bids.getD []) = [] ∨ parse_levels (m.asks.getD []) = []
    then none
  else if (mkSnapshot (m.token_id.getD "") (parse_levels (m.bids.getD []))
      (parse_levels (m.asks.getD [])) now).is_valid then
    some (mkSnapshot (m.token_id.getD "") (parse_levels (m.bids.getD []))
      (parse_levels (m.asks.getD [])) now)
  else none

/-- `PolymarketWebSocketOrderbook._process_message` (lines 217–259), acting on
the orderbook cache (a map from token id to cached snapshot): the cache entry
is replaced only when the message parses to a valid snapshot. -/
def process_message (cache : String → Option OrderbookSnapshot) (m : WSMessage)
    (now : ℚ) : String → Option OrderbookSnapshot :=
  if m.mtype = some "orderbook" ∨ m.bids.isSome then
    match parse_orderbook_message m now with
    | some snapshot => fun k => if k = snapshot.token_id then some snapshot else cache k
    | none => cache
  else cache

theorem parse_levels_sound {raw : List RawEntry} {l : ℚ × ℚ}
    (h : l ∈ parse_levels raw) : 0 ≤ l.1 ∧ l.1 ≤ 1 ∧ 0 < l.2 := by
  unfold parse_levels at h
  rcases List.mem_filterMap.mp h with ⟨e, _, he⟩
  cases e with
  | malformed => simp at he
  | entry p s =>
    by_cases hc : 0 ≤ p ∧ p ≤ 1 ∧ 0 < s
    · simp only [if_pos hc, Option.some_inj] at he
      rw [← he]
      exact hc
    · simp [if_neg hc] at he

end WS

/-- Formalisation of C3's validity conditions, taken from the claim's own
words, for comparison with the code's checks: bid and ask level lists
non-empty, every level with `0 < price < 1` and `size > 0`, and the first
levels satisfying `best_bid < best_ask` with both strictly inside (0,1). -/
def specMessageValid (m : WS.WSMessage) : Prop :=
  m.bids.getD [] ≠ [] ∧ m.asks.getD [] ≠ [] ∧
  (∀ e ∈ m.bids.getD [] ++ m.asks.getD [],
    ∃ p s, e = WS.RawEntry.entry p s ∧ 0 < p ∧ p < 1 ∧ 0 < s) ∧
  (∀ pb sb pa sa rb ra,
    m.bids.getD [] = WS.RawEntry.entry pb sb :: rb →
    m.asks.getD [] = WS.RawEntry.entry pa sa :: ra →
    0 < pb ∧ pb < pa ∧ pa < 1)

/-- C3 (counterexample): the claim says a message replaces the cache only if
every level has `0 < price < 1`, and that a message failing any check leaves
the prior snapshot unchanged.  The code keeps levels with `0 <= price <= 1`
(price 0 and 1 allowed) and drops bad levels instead of rejecting the
message: the message with bids `[(0.5, 10), (0.0, 5)]` and asks
`[(0.6, 10)]` fails the claim's per-level check yet replaces the cache entry
for token "t". -/
theorem c3_orderbook_counterexample :
    ¬ (∀ (cache : String → Option WS.OrderbookSnapshot) (m : WS.WSMessage) (now : ℚ),
        ¬ specMessageValid m → WS.process_message cache m now = cache) := by
  intro h
  have hm : ¬ specMessageValid
      { token_id := some "t", mtype := some "orderbook",
        bids := some [WS.RawEntry.entry (1/2) 10, WS.RawEntry.entry 0 5],
        asks := some [WS.RawEntry.entry (3/5) 10] } := by
    intro hv
    rcases hv.2.2.1 (WS.RawEntry.entry 0 5) (by simp) with ⟨p, s, he, hp, _, _⟩
    simp only [WS.RawEntry.entry.injEq] at he
    rw [← he.1] at hp
    exact lt_irrefl 0 hp
  have heq := h (fun _ => none)
    { token_id := some "t", mtype := some "orderbook",
      bids := some [WS.RawEntry.entry (1/2) 10, WS.RawEntry.entry 0 5],
      asks := some [WS.RawEntry.entry (3/5) 10] } 0 hm
  have happ := congrFun heq "t"
  have hlb : WS.parse_levels [WS.RawEntry.entry (1/2) 10, WS.RawEntry.entry 0 5] =
      [(1/2, 10), (0, 5)] := by
    norm_num [WS.parse_levels, List.filterMap_cons, List.filterMap_nil]
  have hla : WS.parse_levels [WS.RawEntry.entry (3/5) 10] = [(3/5, 10)] := by
    norm_num [WS.parse_levels, List.filterMap_cons, List.filterMap_nil]
  have hvalid : (WS.mkSnapshot "t" [((1:ℚ)/2, 10), (0, 5)] [((3:ℚ)/5, 10)] 0).is_valid := by
    refine ⟨by simp [WS.mkSnapshot], by simp [WS.mkSnapshot], ?_, ?_, ?_⟩ <;>
      norm_num [WS.mkSnapshot]
  have hparse : WS.parse_orderbook_message
      { token_id := some "t", mtype := some "orderbook",
        bids := some [WS.RawEntry.entry (1/2) 10, WS.RawEntry.entry 0 5],
        asks := some [WS.RawEntry.entry (3/5) 10] } 0 =
      some (WS.mkSnapshot "t" [(1/2, 10), (0, 5)] [(3/5, 10)] 0) := by
    unfold WS.parse_orderbook_message
    simp only [Option.getD_some, hlb, hla]
    rw [if_neg (by simp), if_neg (by simp), if_pos hvalid]
  rw [show WS.process_message (fun _ => none)
      { token_id := some "t", mtype := some "orderbook",
        bids := some [WS.RawEntry.entry (1/2) 10, WS.RawEntry.entry 0 5],
        asks := some [WS.RawEntry.entry (3/5) 10] } 0 "t" =
      some (WS.mkSnapshot "t" [(1/2, 10), (0, 5)] [(3/5, 10)] 0) from by
    unfold WS.process_message
    rw [if_pos (Or.inl rfl), hparse]
    norm_num [WS.mkSnapshot]] at happ
  exact Option.noConfusion happ

/-- C3 (amended): a message replaces the cached snapshot only for the parsed
token and only if, after dropping levels that fail `0 ≤ price ≤ 1` and
`size > 0` (and malformed entries), both surviving level lists are non-empty
and `0 < best_bid < best_ask < 1`; every message that does not parse to such a
valid snapshot, and every other token's entry, is left unchanged, with no
exception raised (the embedding is total). -/
theorem c3_orderbook_cache_update (cache : String → Option WS.OrderbookSnapshot)
    (m : WS.WSMessage) (now : ℚ) :
    (WS.parse_orderbook_message m now = none →
      WS.process_message cache m now = cache) ∧
    (∀ snapshot, WS.parse_orderbook_message m now = some snapshot →
      (WS.process_message cache m now snapshot.token_id = some snapshot ∧
       (∀ k, k ≠ snapshot.token_id → WS.process_message cache m now k = cache k) ∧
       snapshot.bids ≠ [] ∧ snapshot.asks ≠ [] ∧
       (∀ l ∈ snapshot.bids ++ snapshot.asks, 0 ≤ l.1 ∧ l.1 ≤ 1 ∧ 0 < l.2) ∧
       0 < snapshot.best_bid ∧ snapshot.best_bid < snapshot.best_ask ∧
       snapshot.best_ask < 1)) := by
  constructor
  · intro hp
    unfold WS.process_message
    split
    · rw [hp]
    · rfl
  · intro snapshot hp
    unfold WS.parse_orderbook_message at hp
    split_ifs at hp with h1 h2 h3
    have hsnap : snapshot = WS.mkSnapshot (m.token_id.getD "")
        (WS.parse_levels (m.bids.getD []))
        (WS.parse_levels (m.asks.getD [])) now := (Option.some_inj.mp hp).symm
    subst hsnap
    have hcond : m.mtype = some "orderbook" ∨ m.bids.isSome := by
      right
      rcases hb : m.bids with _ | bl
      · exfalso
        apply h2
        left
        simp [hb, WS.parse_levels]
      · simp
    have hparse : WS.parse_orderbook_message m now =
        some (WS.mkSnapshot (m.token_id.getD "")
          (WS.parse_levels (m.bids.getD []))
          (WS.parse_levels (m.asks.getD [])) now) := by
      unfold WS.parse_orderbook_message
      rw [if_neg h1, if_neg h2, if_pos h3]
    have hproc : WS.process_message cache m now =
        fun k => if k = (WS.mkSnapshot (m.token_id.getD "")
            (WS.parse_levels (m.bids.getD []))
            (WS.parse_levels (m.asks.getD [])) now).token_id then
          some (WS.mkSnapshot (m.token_id.getD "")
            (WS.parse_levels (m.bids.getD []))
            (WS.parse_levels (m.asks.getD [])) now)
        else cache k := by
      unfold WS.process_message
      rw [if_pos hcond, hparse]
    push_neg at h2
    obtain ⟨hbne, hane⟩ := h2
    obtain ⟨_, _, hv1, hv2, hv3⟩ := h3
    refine ⟨?_, ?_, hbne, hane, ?_, hv1, hv2, hv3⟩
    · rw [hproc]
      simp
    · intro k hk
      rw [hproc]
      simp [hk]
    · intro l hl
      rcases List.mem_append.mp hl with hl | hl
      · exact WS.parse_levels_sound hl
      · exact WS.parse_levels_sound hl

/-- Witness for C3 (amended): a clean message for token "w" with bids
`[(0.4, 5)]`, asks `[(0.6, 5)]` parses to a valid snapshot and replaces the
(empty) cache entry for "w". -/
theorem c3_orderbook_cache_update_witness :
    WS.parse_orderbook_message
      { token_id := some "w", mtype := some "orderbook",
        bids := some [WS.RawEntry.entry (2/5) 5],
        asks := some [WS.RawEntry.entry (3/5) 5] } 0 =
      some (WS.mkSnapshot "w" [(2/5, 5)] [(3/5, 5)] 0) ∧
    WS.process_message (fun _ => none)
      { token_id := some "w", mtype := some "orderbook",
        bids := some [WS.RawEntry.entry (2/5) 5],
        asks := some [WS.RawEntry.entry (3/5) 5] } 0
      (WS.mkSnapshot "w" [(2/5, 5)] [(3/5, 5)] 0).token_id =
      some (WS.mkSnapshot "w" [(2/5, 5)] [(3/5, 5)] 0) := by
  have hlb : WS.parse_levels [WS.RawEntry.entry (2/5) 5] = [(2/5, 5)] := by
    norm_num [WS.parse_levels, List.filterMap_cons, List.filterMap_nil]
  have hla : WS.parse_levels [WS.RawEntry.entry (3/5) 5] = [(3/5, 5)] := by
    norm_num [WS.parse_levels, List.filterMap_cons, List.filterMap_nil]
  have hvalid : (WS.mkSnapshot "w" [((2:ℚ)/5, 5)] [((3:ℚ)/5, 5)] 0).is_valid := by
    refine ⟨by simp [WS.mkSnapshot], by simp [WS.mkSnapshot], ?_, ?_, ?_⟩ <;>
      norm_num [WS.mkSnapshot]
  have hparse : WS.parse_orderbook_message
      { token_id := some "w", mtype := some "orderbook",
        bids := some [WS.RawEntry.entry (2/5) 5],
        asks := some [WS.RawEntry.entry (3/5) 5] } 0 =
      some (WS.mkSnapshot "w" [(2/5, 5)] [(3/5, 5)] 0) := by
    unfold WS.parse_orderbook_message
    simp only [Option.getD_some, hlb, hla]
    rw [if_neg (by simp), if_neg (by simp), if_pos hvalid]
  refine ⟨hparse, ?_⟩
  exact ((c3_orderbook_cache_update (fun _ => none)
    { token_id := some "w", mtype := some "orderbook",
      bids := some [WS.RawEntry.entry (2/5) 5],
      asks := some [WS.RawEntry.entry (3/5) 5] } 0).2
    (WS.mkSnapshot "w" [(2/5, 5)] [(3/5, 5)] 0) hparse).1

/-! ## `market_maker/quote_engine.py` — `QuoteEngine` (namespace `QE`) -/

namespace QE

/-- The configuration fields of `Settings` read by the quote engine. -/
structure Settings where
  min_spread_bps : ℤ
  default_size : ℚ
deriving DecidableEq, Repr

/-- `Quote` dataclass (lines 14–21). -/
structure Quote where
  side : String
  price : ℚ
  size : ℚ
  market : String
  token_id : String
  dist_bps : ℤ := 0
deriving DecidableEq, Repr

/-- One leg's L2 book inside `orderbook_data["l2_data"]` (a dict that carries
the "bids" and "asks" keys). -/
structure L2Book where
  bids : List (ℚ × ℚ)
  asks : List (ℚ × ℚ)
deriving DecidableEq, Repr

/-- `orderbook_data["l2_data"]`: per-leg books, absent keys as `none`. -/
structure L2Data where
  yes : Option L2Book := none
  no : Option L2Book := none
deriving DecidableEq, Repr

/-- `orderbook_data` argument of `generate_quotes`. -/
structure OrderbookData where
  l2_available : Bool := false
  l2_data : Option L2Data := none
deriving DecidableEq, Repr

/-- `QuoteEngine.calculate_imbalance` (lines 31–67) with
`l2_depth_levels = 5`. -/
def calculate_imbalance (bids asks : List (ℚ × ℚ)) : ℚ :=
  if bids = [] ∨ asks = [] then 0
  else if ((bids.take 5).map Prod.snd).sum + ((asks.take 5).map Prod.snd).sum = 0
    then 0
  else
    max (-1) (min 1
      ((((asks.take 5).map Prod.snd).sum - ((bids.take 5).map Prod.snd).sum) /
        (((asks.take 5).map Prod.snd).sum + ((bids.take 5).map Prod.snd).sum)))

/-- `QuoteEngine.calculate_dist_bps` (lines 69–73). -/
def calculate_dist_bps (my_price market_price : ℚ) : ℤ :=
  if market_price ≤ 0 then 0
  else pytrunc (|my_price - market_price| / market_price * 10000)

/-- `QuoteEngine._calculate_l2_mid_price` (lines 75–116) with
`depth_levels = 3`.  The `IndexError` raised when a side is empty lands in the
`except` fallback, which returns `0.5` since not both sides are non-empty. -/
def l2_mid_price (bids asks : List (ℚ × ℚ)) : ℚ :=
  match bids.head?, asks.head? with
  | some b0, some a0 =>
    if ((bids.take 3).map Prod.snd).sum = 0 ∨ ((asks.take 3).map Prod.snd).sum = 0
      then (b0.1 + a0.1) / 2
    else
      max (1/1000) (min (999/1000)
        ((((bids.take 3).map (fun l => l.1 * l.2)).sum / ((bids.take 3).map Prod.snd).sum +
          ((asks.take 3).map (fun l => l.1 * l.2)).sum / ((asks.take 3).map Prod.snd).sum) / 2))
  | _, _ => 1/2

/-- `using_l2` flag of `generate_quotes`: a present `orderbook_data` dict with
truthy `l2_available` and a truthy `l2_data`. -/
def using_l2 (ob : Option OrderbookData) : Bool :=
  match ob with
  | some o => o.l2_available && o.l2_data.isSome
  | none => false

/-- `yes_l2` of `generate_quotes`: the yes-leg book when the L2 branch is
taken, `None` otherwise. -/
def yes_l2 (ob : Option OrderbookData) : Option L2Book :=
  match ob with
  | some o =>
    if o.l2_available then
      match o.l2_data with
      | some d => d.yes
      | none => none
    else none
  | none => none

/-- `imbalance` computed in `generate_quotes` (lines 155–159): only the
yes-leg L2 book feeds it, otherwise 0. -/
def imbalance_of (ob : Option OrderbookData) : ℚ :=
  match yes_l2 ob with
  | some bk => calculate_imbalance bk.bids bk.asks
  | none => 0

/-- `mid_yes` of `generate_quotes` (lines 161–178): L2 volume-weighted mid
when available, otherwise the best-bid/ask midpoint, else 0.5. -/
def mid_yes (best_bid best_ask : ℚ) (ob : Option OrderbookData) : ℚ :=
  match yes_l2 ob with
  | some bk => l2_mid_price bk.bids bk.asks
  | none => if best_bid > 0 ∧ best_ask > 0 then (best_bid + best_ask) / 2 else 1/2

/-- Line 189/190: `round(max(mid * (1 - spread_bps/10000), tick_size), 3)`. -/
def pre_skew_price (settings : Settings) (mid : ℚ) : ℚ :=
  round3 (max (mid * (1 - (settings.min_spread_bps : ℚ) / 10000)) (1/1000))

/-- Lines 195–205: push prices away from the dominant side when the L2 branch
is active and |imbalance| > 0.3 (`imbalance_adjustment = imbalance * 0.002`). -/
def imb_adjust (ob : Option OrderbookData) (yes_p no_p : ℚ) : ℚ × ℚ :=
  if using_l2 ob = true ∧ |imbalance_of ob| > 3/10 then
    (round3 (yes_p - imbalance_of ob * (2/1000)),
     round3 (no_p + imbalance_of ob * (2/1000)))
  else (yes_p, no_p)

/-- The `while` loop of lines 207–210: while `yes_p + no_p >= 0.999` and
either price is above one tick, lower both by one tick (re-rounded to three
decimals). -/
def edge_reduce (yes_p no_p : ℚ) : ℚ × ℚ :=
  if 999/1000 ≤ yes_p + no_p ∧ (1/1000 < yes_p ∨ 1/1000 < no_p) then
    edge_reduce (round3 (yes_p - 1/1000)) (round3 (no_p - 1/1000))
  else (yes_p, no_p)
termination_by (⌈(yes_p + no_p) * 1000⌉ - 998).toNat
decreasing_by
  rename_i h
  obtain ⟨hsum, _⟩ := h
  have h1 := round3_le (yes_p - 1/1000)
  have h2 := round3_le (no_p - 1/1000)
  have hmul : (round3 (yes_p - 1/1000) + round3 (no_p - 1/1000)) * 1000 ≤
      (yes_p + no_p) * 1000 - 1 := by nlinarith
  have hc1 : ⌈(round3 (yes_p - 1/1000) + round3 (no_p - 1/1000)) * 1000⌉ ≤
      ⌈(yes_p + no_p) * 1000 - (1:ℤ)⌉ := Int.ceil_le_ceil (by push_cast; linarith)
  rw [Int.ceil_sub_int] at hc1
  have hge : (999 : ℤ) ≤ ⌈(yes_p + no_p) * 1000⌉ := by
    apply Int.le_ceil_iff.mpr
    push_cast
    nlinarith
  omega

/-- The pre-loop price pair of `generate_quotes` (lines 189–205): spread from
mid, inventory-skew shift, then the imbalance adjustment. -/
def pre_prices (settings : Settings) (inv : Inv1.InventoryManager)
    (best_bid best_ask : ℚ) (ob : Option OrderbookData) : ℚ × ℚ :=
  imb_adjust ob
    (inv.apply_skew_to_price (pre_skew_price settings (mid_yes best_bid best_ask ob)) true)
    (inv.apply_skew_to_price (pre_skew_price settings (1 - mid_yes best_bid best_ask ob)) false)

/-- Lines 212–256: after the edge loop, return `(None, None)` when the pair
still costs at least 0.999, otherwise build the two BUY quotes. -/
def finalize (settings : Settings) (inv : Inv1.InventoryManager)
    (market_id : String) (best_bid best_ask : ℚ)
    (yes_token_id no_token_id : String) (pr : ℚ × ℚ) : Option (Quote × Quote) :=
  if 999/1000 ≤ pr.1 + pr.2 then none
  else
    some
      ({ side := "BUY", price := pr.1,
         size := inv.get_quote_size_yes settings.default_size pr.1,
         market := market_id, token_id := yes_token_id,
         dist_bps := calculate_dist_bps pr.1 best_bid },
       { side := "BUY", price := pr.2,
         size := inv.get_quote_size_no settings.default_size pr.2,
         market := market_id, token_id := no_token_id,
         dist_bps := calculate_dist_bps pr.2 (round3 (1 - best_ask)) })

/-- `QuoteEngine.generate_quotes` (lines 118–260): mid computation, spread,
inventory skew, imbalance adjustment, edge guard, then the quote pair. -/
def generate_quotes (settings : Settings) (inv : Inv1.InventoryManager)
    (market_id : String) (best_bid best_ask : ℚ)
    (yes_token_id no_token_id : String)
    (ob : Option OrderbookData) : Option (Quote × Quote) :=
  if mid_yes best_bid best_ask ob ≤ 0 ∨ 1 ≤ mid_yes best_bid best_ask ob then none
  else
    finalize settings inv market_id best_bid best_ask yes_token_id no_token_id
      (edge_reduce (pre_prices settings inv best_bid best_ask ob).1
        (pre_prices settings inv best_bid best_ask ob).2)

/-- Exit condition of the edge loop: when the guard requirement
`yes_p + no_p < 0.999` already holds, the loop body never runs. -/
theorem edge_reduce_fix {y n : ℚ} (h : y + n < 999/1000) :
    edge_reduce y n = (y, n) := by
  unfold edge_reduce
  rw [if_neg]
  intro hc
  linarith [hc.1]

/-- The loop exits only with the edge requirement satisfied or with both
prices at or below one tick. -/
theorem edge_reduce_post (y n : ℚ) :
    (edge_reduce y n).1 + (edge_reduce y n).2 < 999/1000 ∨
    ((edge_reduce y n).1 ≤ 1/1000 ∧ (edge_reduce y n).2 ≤ 1/1000) := by
  induction y, n using edge_reduce.induct with
  | case1 y n h ih =>
    rw [edge_reduce, if_pos h]
    exact ih
  | case2 y n h =>
    rw [edge_reduce, if_neg h]
    push_neg at h
    by_cases hs : 999/1000 ≤ y + n
    · exact Or.inr (h hs)
    · exact Or.inl (lt_of_not_le hs)

end QE

theorem rhe_intCast (k : ℤ) : rhe (k : ℚ) = k := by
  unfold rhe
  rw [Int.floor_intCast]
  rw [if_pos]
  norm_num

theorem round3_thousandth (k : ℤ) : round3 ((k : ℚ) / 1000) = (k : ℚ) / 1000 := by
  unfold round3
  have hm : ((k : ℚ) / 1000) * 1000 = (k : ℚ) := by
    field_simp
  rw [hm, rhe_intCast]

theorem round3_zero : round3 0 = 0 := by
  have := round3_thousandth 0
  norm_num at this
  exact this

theorem pytrunc_intCast (k : ℤ) : pytrunc (k : ℚ) = k := by
  unfold pytrunc
  split
  · exact Int.ceil_intCast k
  · exact Int.floor_intCast k

/-- C1: (i) whenever `generate_quotes` returns both quotes, the two prices
cost strictly less than `0.999 = 1 − one_tick`, hence strictly less than 1,
and they are a fixpoint of the tick-reduction loop (no further reduction is
required); (ii) the tick-reduction loop only exits with the edge requirement
satisfied or with both prices at the tick floor (≤ one tick); (iii) whenever
the pair produced by the loop still costs at least `0.999`, the engine
returns no quotes (both absent). -/
theorem c1_generate_quotes_edge :
    (∀ (settings : QE.Settings) (inv : Inv1.InventoryManager)
        (market_id : String) (best_bid best_ask : ℚ)
        (yes_token_id no_token_id : String) (ob : Option QE.OrderbookData)
        (yq nq : QE.Quote),
      QE.generate_quotes settings inv market_id best_bid best_ask
          yes_token_id no_token_id ob = some (yq, nq) →
      yq.price + nq.price < 999/1000 ∧ yq.price + nq.price < 1 ∧
        QE.edge_reduce yq.price nq.price = (yq.price, nq.price)) ∧
    (∀ y n : ℚ,
      (QE.edge_reduce y n).1 + (QE.edge_reduce y n).2 < 999/1000 ∨
      ((QE.edge_reduce y n).1 ≤ 1/1000 ∧ (QE.edge_reduce y n).2 ≤ 1/1000)) ∧
    (∀ (settings : QE.Settings) (inv : Inv1.InventoryManager)
        (market_id : String) (best_bid best_ask : ℚ)
        (yes_token_id no_token_id : String) (ob : Option QE.OrderbookData),
      999/1000 ≤
        (QE.edge_reduce (QE.pre_prices settings inv best_bid best_ask ob).1
            (QE.pre_prices settings inv best_bid best_ask ob).2).1 +
        (QE.edge_reduce (QE.pre_prices settings inv best_bid best_ask ob).1
            (QE.pre_prices settings inv best_bid best_ask ob).2).2 →
      QE.generate_quotes settings inv market_id best_bid best_ask
          yes_token_id no_token_id ob = none) := by
  refine ⟨?_, QE.edge_reduce_post, ?_⟩
  · intro settings inv market_id best_bid best_ask ytok ntok ob yq nq h
    unfold QE.generate_quotes at h
    split_ifs at h with hmid
    unfold QE.finalize at h
    split_ifs at h with hge
    have heq := Option.some_inj.mp h
    rw [Prod.mk.injEq] at heq
    obtain ⟨hy, hn⟩ := heq
    subst hy
    subst hn
    push_neg at hge
    exact ⟨hge, by linarith, QE.edge_reduce_fix hge⟩
  · intro settings inv market_id best_bid best_ask ytok ntok ob h
    unfold QE.generate_quotes
    split_ifs with hmid
    · rfl
    · unfold QE.finalize
      rw [if_pos h]

/-- Witness for C1: settings with a 100 bps minimum spread and size 5, a
zeroed inventory, best bid 0.2 / best ask 0.6 and no L2 data produce the quote
pair (0.396, 0.594), whose cost 0.99 is below 1. -/
theorem c1_generate_quotes_witness :
    QE.generate_quotes ⟨100, 5⟩ ⟨100, -100, 0, {}⟩ "m" (1/5) (3/5) "y" "n" none =
      some ({ side := "BUY", price := 396/1000, size := 5, market := "m",
              token_id := "y", dist_bps := 9800 },
            { side := "BUY", price := 594/1000, size := 5, market := "m",
              token_id := "n", dist_bps := 4850 }) ∧
    (396/1000 : ℚ) + 594/1000 < 1 := by
  have hmid : QE.mid_yes (1/5) (3/5) none = 2/5 := by
    show (if (1:ℚ)/5 > 0 ∧ (3:ℚ)/5 > 0 then ((1:ℚ)/5 + 3/5) / 2 else 1/2) = 2/5
    rw [if_pos (by norm_num)]
    norm_num
  have hr396 : round3 ((396:ℚ)/1000) = 396/1000 := by
    have := round3_thousandth 396
    push_cast at this
    exact this
  have hr594 : round3 ((594:ℚ)/1000) = 594/1000 := by
    have := round3_thousandth 594
    push_cast at this
    exact this
  have hr400 : round3 ((2:ℚ)/5) = 2/5 := by
    have := round3_thousandth 400
    push_cast at this
    rw [show ((400:ℚ)/1000) = 2/5 by norm_num] at this
    exact this
  have hpre_y : QE.pre_skew_price ⟨100, 5⟩ (2/5) = 396/1000 := by
    unfold QE.pre_skew_price
    rw [show max ((2/5 : ℚ) * (1 - ((100:ℤ) : ℚ) / 10000)) (1/1000) = 396/1000 by
      rw [max_eq_left (by push_cast; norm_num)]
      push_cast
      norm_num]
    exact hr396
  have hpre_n : QE.pre_skew_price ⟨100, 5⟩ (1 - 2/5) = 594/1000 := by
    unfold QE.pre_skew_price
    rw [show max ((1 - 2/5 : ℚ) * (1 - ((100:ℤ) : ℚ) / 10000)) (1/1000) = 594/1000 by
      rw [max_eq_left (by push_cast; norm_num)]
      push_cast
      norm_num]
    exact hr594
  have hadj : round3 ((0:ℚ) / max (100:ℚ) 1 * (5/1000)) = 0 := by
    rw [show ((0:ℚ) / max (100:ℚ) 1 * (5/1000)) = 0 by norm_num]
    exact round3_zero
  have hskew_y : Inv1.InventoryManager.apply_skew_to_price ⟨100, -100, 0, {}⟩
      (396/1000) true = 396/1000 := by
    unfold Inv1.InventoryManager.apply_skew_to_price
    show round3 (max (1/1000) (min (999/1000) ((396:ℚ)/1000 - round3 (0 / max (100:ℚ) 1 * (5/1000))))) = 396/1000
    rw [hadj]
    rw [show max ((1:ℚ)/1000) (min (999/1000) (396/1000 - 0)) = 396/1000 by norm_num]
    exact hr396
  have hskew_n : Inv1.InventoryManager.apply_skew_to_price ⟨100, -100, 0, {}⟩
      (594/1000) false = 594/1000 := by
    unfold Inv1.InventoryManager.apply_skew_to_price
    show round3 (max (1/1000) (min (999/1000) ((594:ℚ)/1000 + round3 (0 / max (100:ℚ) 1 * (5/1000))))) = 594/1000
    rw [hadj]
    rw [show max ((1:ℚ)/1000) (min (999/1000) (594/1000 + 0)) = 594/1000 by norm_num]
    exact hr594
  have hpre : QE.pre_prices ⟨100, 5⟩ ⟨100, -100, 0, {}⟩ (1/5) (3/5) none =
      (396/1000, 594/1000) := by
    unfold QE.pre_prices
    rw [hmid, hpre_y, hpre_n, hskew_y, hskew_n]
    unfold QE.imb_adjust
    rw [if_neg]
    intro hc
    simp [QE.using_l2] at hc
  have hfix : QE.edge_reduce (396/1000) (594/1000) = (396/1000, 594/1000) :=
    QE.edge_reduce_fix (by norm_num)
  have hdy : QE.calculate_dist_bps (396/1000) (1/5) = 9800 := by
    unfold QE.calculate_dist_bps
    rw [if_neg (by norm_num)]
    rw [show |(396:ℚ)/1000 - 1/5| / (1/5) * 10000 = ((9800:ℤ) : ℚ) by
      rw [abs_of_pos (by norm_num)]
      push_cast
      norm_num]
    exact pytrunc_intCast 9800
  have hdn : QE.calculate_dist_bps (594/1000) (round3 (1 - 3/5)) = 4850 := by
    unfold QE.calculate_dist_bps
    rw [show ((1:ℚ) - 3/5) = 2/5 by norm_num, hr400]
    rw [if_neg (by norm_num)]
    rw [show |(594:ℚ)/1000 - 2/5| / (2/5) * 10000 = ((4850:ℤ) : ℚ) by
      rw [abs_of_pos (by norm_num)]
      push_cast
      norm_num]
    exact pytrunc_intCast 4850
  have hsy : Inv1.InventoryManager.get_quote_size_yes ⟨100, -100, 0, {}⟩ 5
      (396/1000) = 5 := by
    unfold Inv1.InventoryManager.get_quote_size_yes
    rw [if_neg]
    norm_num
  have hsn : Inv1.InventoryManager.get_quote_size_no ⟨100, -100, 0, {}⟩ 5
      (594/1000) = 5 := by
    unfold Inv1.InventoryManager.get_quote_size_no
    rw [if_neg]
    norm_num
  constructor
  · unfold QE.generate_quotes
    rw [hmid, if_neg (by norm_num), hpre, hfix]
    unfold QE.finalize
    rw [if_neg (by norm_num)]
    rw [hdy, hdn, hsy, hsn]
  · have h := (c1_generate_quotes_edge.1 ⟨100, 5⟩ ⟨100, -100, 0, {}⟩ "m" (1/5)
      (3/5) "y" "n" none
      { side := "BUY", price := 396/1000, size := 5, market := "m",
        token_id := "y", dist_bps := 9800 }
      { side := "BUY", price := 594/1000, size := 5, market := "m",
        token_id := "n", dist_bps := 4850 } ?_).2.1
    · exact h
    · unfold QE.generate_quotes
      rw [hmid, if_neg (by norm_num), hpre, hfix]
      unfold QE.finalize
      rw [if_neg (by norm_num)]
      rw [hdy, hdn, hsy, hsn]
